import Mathlib

/-!
Shallow embedding of `src/main.py` (stat186): bootstrap-with-caching
orchestration for post-selective lasso coefficient estimates.

Modelling conventions:
* Numeric values (pandas floats) are modelled as rationals.
* A pandas `Series` of coefficients is an ordered association list
  (`Record`), since `main.py` builds records by filtering/concatenating
  Series and order is observable in the stored cache.
* Collaborators that are not part of `src/` (numpy's seeded generator,
  `full_grid_search`, statsmodels' `fit_regularized` and OLS `fit`) are
  opaque function parameters of the engine, bundled in `Params`.
  `full_grid_search(X, y, grid_size=5)` is only ever applied to the
  fixed full data inside `cte_boostrap`, and the spec declares it a
  deterministic pure function of its inputs, so its result is one fixed
  pair `gridSearchFull`.
* Side effects (fit invocations, legacy reuse, cache persistence) are
  recorded in an event trace so theorems can state which operations a
  run performs and in which order.
-/

namespace Stat186

/-- A coefficient record: a pandas `Series` as an ordered association
list from column name to numeric value. -/
abbrev Record := List (String × ℚ)

/-- Series lookup by name: the first entry carrying the given column
name (pandas label lookup). -/
def lookupCoeff (r : Record) (c : String) : Option ℚ :=
  (r.find? (fun p => decide (p.1 = c))).map Prod.snd

/-- The seed values stored in a cache (`coeffs['seed']`, line 39 / 49 of
`main.py`; `.unique()` only drops duplicates, which does not change
membership, the only use made of it). -/
def recordSeeds (cache : List Record) : List ℚ :=
  cache.filterMap (fun r => lookupCoeff r "seed")

/-- Whether `needle` begins `hay`, character by character. -/
def leadMatch : List Char → List Char → Bool
  | [], _ => true
  | _ :: _, [] => false
  | c :: cs, d :: ds => c == d && leadMatch cs ds

/-- Python's `needle in hay` on character lists: `needle` occurs
contiguously somewhere in `hay`. -/
def containsSub (needle : List Char) : List Char → Bool
  | [] => needle.isEmpty
  | c :: rest => leadMatch needle (c :: rest) || containsSub needle rest

/-- Python's substring test `needle in hay` on strings. -/
def strContains (hay needle : String) : Bool :=
  containsSub needle.data hay.data

/-- ASCII lowering of one character. Python's `str.lower()` restricted
to ASCII, which covers every selector keyword and flag value the code
compares against. -/
def charLower (c : Char) : Char :=
  if 'A' ≤ c ∧ c ≤ 'Z' then Char.ofNat (c.toNat + 32) else c

/-- Python's `s.lower()` (ASCII fragment). -/
def strLower (s : String) : String :=
  String.mk (s.data.map charLower)

/-- Observable operations of one `cte_boostrap` run (`main.py` lines
54-100), each tagged with the bootstrap seed performing it. -/
inductive Event where
  | skip (b : Nat)
  | gridSearchCall (b : Nat) (l1 l2 : ℚ)
  | regFitCall (b : Nat) (inds : List Nat)
  | legacyReuse (b : Nat)
  | olsRefitCall (b : Nat) (inds : List Nat) (selected : List String)
  | persist (b : Nat)
  deriving DecidableEq

/-- The seed an event belongs to. -/
def eventSeed : Event → Nat
  | .skip b => b
  | .gridSearchCall b _ _ => b
  | .regFitCall b _ => b
  | .legacyReuse b => b
  | .olsRefitCall b _ _ => b
  | .persist b => b

/-- Recognizer for grid-search invocations in the trace. -/
def isGridCall : Event → Bool
  | .gridSearchCall _ _ _ => true
  | _ => false

/-- Inputs of one `cte_boostrap(response)` run: the full data returned
by `pull_classroom_data`, the loaded current and legacy caches, the
sample count, and the out-of-`src/` numeric collaborators as opaque
functions. `rng b high size` models `np.random.seed(b)` followed by
`np.random.randint(0, high, size)`: the draw is a pure function of the
reseed value. `regFit reX reY alpha c` is coefficient `c` of
`OLS(re_y, re_X).fit_regularized(alpha=alpha, L1_wt=1).params`, and
`olsFit reXsel reY sel c` is coefficient `c` of
`OLS(re_y, re_X[sel]).fit().params`. -/
structure Params where
  cols : List String
  rows : List (List ℚ)
  y : List ℚ
  rng : Nat → Nat → Nat → List Nat
  gridSearchFull : ℚ × ℚ
  regFit : List (List ℚ) → List ℚ → List ℚ → String → ℚ
  olsFit : List (List ℚ) → List ℚ → List String → String → ℚ
  oldCoeffs : List Record
  initCoeffs : List Record
  numSamples : Nat

/-- Seeds of the loaded current cache (`precomputed`, line 39; empty
list when no cache file exists, line 42). -/
def preSeeds (ps : Params) : List ℚ := recordSeeds ps.initCoeffs

/-- Seeds of the loaded legacy cache (`old_precomputed`, line 49). -/
def oldSeeds (ps : Params) : List ℚ := recordSeeds ps.oldCoeffs

/-- Resample indices for seed `b` (lines 62-63): `np.random.seed(b)`
then `np.random.randint(0, high=n, size=n)` with `n = X.shape[0]`. -/
def resampleIndsOf (ps : Params) (b : Nat) : List Nat :=
  ps.rng b ps.rows.length ps.rows.length

/-- `re_X = X.iloc[sample_inds]` (line 64): the rows at the drawn
indices, duplicates allowed, in the order drawn. -/
def resampleX (ps : Params) (b : Nat) : List (List ℚ) :=
  (resampleIndsOf ps b).map (fun i => ps.rows.getD i [])

/-- `re_y = y.iloc[sample_inds]` (line 65). -/
def resampleY (ps : Params) (b : Nat) : List ℚ :=
  (resampleIndsOf ps b).map (fun i => ps.y.getD i 0)

/-- The legacy record for seed `b` with the `seed` field dropped
(lines 68-70): the first legacy row whose `seed` equals `b`, restricted
to its non-`seed` labels. -/
def legacyRow (ps : Params) (b : Nat) : Record :=
  ((ps.oldCoeffs.find?
      (fun r => decide (lookupCoeff r "seed" = some (b : ℚ)))).getD []).filter
    (fun p => decide (p.1 ≠ "seed"))

/-- The per-column penalty vector (lines 78-80): `l1/n` for columns
whose name contains `interaction`, `l2/n` otherwise. -/
def alphaVec (ps : Params) : List ℚ :=
  ps.cols.map (fun c =>
    if strContains c "interaction" then ps.gridSearchFull.1 / (ps.rows.length : ℚ)
    else ps.gridSearchFull.2 / (ps.rows.length : ℚ))

/-- The regularized-fit coefficients of a fresh seed (lines 74-84): one
value per design-matrix column (`re_X.columns = X.columns`), produced by
the opaque solver on the resampled data with the grid-search pair. -/
def freshParams (ps : Params) (b : Nat) : Record :=
  ps.cols.map (fun c =>
    (c, ps.regFit (resampleX ps b) (resampleY ps b) (alphaVec ps) c))

/-- `result_params` for seed `b` (lines 67-84): the legacy row when `b`
is in the legacy cache, otherwise the fresh regularized fit. -/
def seedResultParams (ps : Params) (b : Nat) : Record :=
  if (b : ℚ) ∈ oldSeeds ps then legacyRow ps b else freshParams ps b

/-- The fit-related events of seed `b` before the refit (lines 67-84):
a legacy seed only reuses its record; a fresh seed runs one grid search
on the full data and one regularized fit on the resample. -/
def branchEvents (ps : Params) (b : Nat) : List Event :=
  if (b : ℚ) ∈ oldSeeds ps then [Event.legacyReuse b]
  else [Event.gridSearchCall b ps.gridSearchFull.1 ps.gridSearchFull.2,
        Event.regFitCall b (resampleIndsOf ps b)]

/-- `selected` (line 87): the names of the nonzero coefficients of
`result_params`, in order. -/
def seedSelected (ps : Params) (b : Nat) : List String :=
  ((seedResultParams ps b).filter (fun p => decide (p.2 ≠ 0))).map Prod.fst

/-- `result_params[nonselected]` (lines 88 and 95): the zero-valued
entries of `result_params`, in order. -/
def seedNonselected (ps : Params) (b : Nat) : Record :=
  (seedResultParams ps b).filter (fun p => decide (p.2 = 0))

/-- `re_X[selected]` (line 91): the resampled rows restricted to the
selected columns. -/
def reXsel (ps : Params) (b : Nat) : List (List ℚ) :=
  (resampleX ps b).map (fun row =>
    (seedSelected ps b).map (fun c => row.getD (ps.cols.indexOf c) 0))

/-- `selective_coeffs` (lines 91-92): the OLS refit on the selected
columns of the resample, one coefficient per selected column. -/
def seedSelective (ps : Params) (b : Nat) : Record :=
  (seedSelected ps b).map (fun c =>
    (c, ps.olsFit (reXsel ps b) (resampleY ps b) (seedSelected ps b) c))

/-- `new_coeffs` (lines 95-98): zero entries first, then the refit
entries, then the `seed` field appended by `new_coeffs['seed'] = int(b)`. -/
def seedRecord (ps : Params) (b : Nat) : Record :=
  seedNonselected ps b ++ seedSelective ps b ++ [("seed", (b : ℚ))]

/-- All events of a non-skipped seed: the branch-specific fit events,
the OLS refit (run in both branches), and the `to_csv` persistence
(line 100). -/
def seedEvents (ps : Params) (b : Nat) : List Event :=
  branchEvents ps b ++
    [Event.olsRefitCall b (resampleIndsOf ps b) (seedSelected ps b),
     Event.persist b]

/-- The in-memory cache plus the event trace of the run so far. -/
structure EngineState where
  coeffs : List Record
  trace : List Event
  deriving DecidableEq

/-- One iteration of the loop body (lines 54-100): a seed already in the
current cache is skipped (`continue`, line 57) with nothing appended;
otherwise its record is computed, appended, and the cache persisted. -/
def seedStep (ps : Params) (b : Nat) (st : EngineState) : EngineState :=
  if (b : ℚ) ∈ preSeeds ps then
    { st with trace := st.trace ++ [Event.skip b] }
  else
    { coeffs := st.coeffs ++ [seedRecord ps b],
      trace := st.trace ++ seedEvents ps b }

/-- The loop `for b in range(num_bootstrap_samples)` (line 54), folded
over an explicit seed list. -/
def runSeeds (ps : Params) : List Nat → EngineState → EngineState
  | [], st => st
  | b :: bs, st => runSeeds ps bs (seedStep ps b st)

/-- `cte_boostrap` (lines 24-100): iterate the loop body over seeds
`0 .. num_bootstrap_samples - 1` starting from the loaded cache. -/
def cteBoostrap (ps : Params) : EngineState :=
  runSeeds ps (List.range ps.numSamples) { coeffs := ps.initCoeffs, trace := [] }

/-- The events contributed by one seed of the loop. -/
def traceOf (ps : Params) (b : Nat) : List Event :=
  if (b : ℚ) ∈ preSeeds ps then [Event.skip b] else seedEvents ps b

/-- The four survey categories (`main.py` lines 143-146). -/
def responseCategories : List String :=
  ["Yr04_print_knowledge", "Yr04_literacy_resources",
   "Yr04_oral_language", "Yr04_print_motivation"]

/-- Response-name resolution (`main.py` lines 141-156): the selector is
lowercased, then tested against the sentinel `all` and the keyword
conditions, in source order; `none` models the `ValueError` raised on
line 156. -/
def resolveResponse (s : String) : Option (List String) :=
  if strLower s = "all" then some responseCategories
  else if strContains (strLower s) "oral" then some ["Yr04_oral_language"]
  else if strContains (strLower s) "literacy" then some ["Yr04_literacy_resources"]
  else if strContains (strLower s) "print" && strContains (strLower s) "knowledge" then
    some ["Yr04_print_knowledge"]
  else if strContains (strLower s) "print" && strContains (strLower s) "motivation" then
    some ["Yr04_print_motivation"]
  else none

/-- Modelled from the spec: the sentence "a substring match against one
of those four category names" read literally, i.e. the categories whose
name contains the (lowercased) input as a substring. Used only to
compare the spec's wording with `resolveResponse`, which is what the
code does. -/
def specSubstringMatches (s : String) : List String :=
  responseCategories.filter (fun c => strContains (strLower c) (strLower s))

/-- `str2bool` (`main.py` lines 13-22) on string input (the only way
`main` applies it, lines 129-131); `none` models the
`argparse.ArgumentTypeError` usage error of line 22. -/
def str2bool (v : String) : Option Bool :=
  if strLower v ∈ ["yes", "true", "t", "y", "1"] then some true
  else if strLower v ∈ ["no", "false", "f", "n", "0"] then some false
  else none

/-- The module-level names `main.py` binds: the imports of lines 1-10
and its three function definitions. -/
def moduleNames : List String :=
  ["os", "np", "pd", "linear_model", "pull_classroom_data",
   "pull_student_data", "PostSelectiveLasso", "full_grid_search",
   "sys", "argparse", "str2bool", "cte_boostrap", "main"]

/-- The function name the orchestrator calls for the bootstrap step
(`main.py` line 184). -/
def mainBootstrapCallTarget : String := "cte_bootstrap"

/-- The names bound inside `cte_boostrap`: its parameter and every name
assigned in its body (lines 24-100). Python resolves a free variable
against these, then the module globals; `num_bootstrap_samples` (line
54) is in neither — it is only assigned inside `main` (line 162). -/
def cteBoostrapLocalNames : List String :=
  ["response", "X", "y", "n", "old_data_path", "bootstrapped_data_path",
   "coeffs", "to_drop", "precomputed", "old_coeffs", "old_precomputed",
   "b", "sample_inds", "re_X", "re_y", "result_params", "inds", "l1",
   "l2", "model", "alpha", "result", "selected", "nonselected",
   "selected_model", "selective_coeffs", "new_coeffs"]

/-- The column labels of a record, in order. -/
def recordKeys (r : Record) : List String := r.map Prod.fst

/-! ### Concrete engine inputs used as witnesses and counterexamples -/

/-- A run with one predictor column, one row, empty caches, and two
seeds: both seeds need a fresh fit. -/
def paramsC1 : Params where
  cols := ["a"]
  rows := [[1]]
  y := [1]
  rng := fun _ _ size => List.replicate size 0
  gridSearchFull := (1, 2)
  regFit := fun _ _ _ _ => 1
  olsFit := fun _ _ _ _ => 1
  oldCoeffs := []
  initCoeffs := []
  numSamples := 1 + 1

/-- A run whose single seed is present in the legacy cache (with stored
coefficient 5 for column `a`) while the OLS refit returns 7. -/
def paramsC2 : Params where
  cols := ["a"]
  rows := [[1]]
  y := [2]
  rng := fun _ _ size => List.replicate size 0
  gridSearchFull := (1, 2)
  regFit := fun _ _ _ _ => 1
  olsFit := fun _ _ _ _ => 7
  oldCoeffs := [[("a", 5), ("seed", 0)]]
  initCoeffs := []
  numSamples := 1

/-- A run whose regularized fit drives every coefficient to zero. -/
def paramsC4 : Params where
  cols := ["a"]
  rows := [[1]]
  y := [1]
  rng := fun _ _ size => List.replicate size 0
  gridSearchFull := (0, 0)
  regFit := fun _ _ _ _ => 0
  olsFit := fun _ _ _ _ => 3
  oldCoeffs := []
  initCoeffs := []
  numSamples := 1

/-- A run whose current cache already holds its single seed. -/
def paramsC5 : Params where
  cols := ["a"]
  rows := [[1]]
  y := [1]
  rng := fun _ _ size => List.replicate size 0
  gridSearchFull := (1, 2)
  regFit := fun _ _ _ _ => 1
  olsFit := fun _ _ _ _ => 1
  oldCoeffs := []
  initCoeffs := [[("a", 4), ("seed", 0)]]
  numSamples := 1

/-- A run with two rows and a generator drawing index `b mod high`
twice, to exercise the resample construction. -/
def paramsC6 : Params where
  cols := ["a"]
  rows := [[1], [2]]
  y := [3, 4]
  rng := fun b high size => List.replicate size (b % high)
  gridSearchFull := (1, 2)
  regFit := fun _ _ _ _ => 1
  olsFit := fun _ _ _ _ => 1
  oldCoeffs := []
  initCoeffs := []
  numSamples := 1

/-- A run with a main-effect column and an interaction column, the
regularized fit zeroing only the interaction column. -/
def paramsC7 : Params where
  cols := ["a", "a_interaction_b"]
  rows := [[1, 2]]
  y := [1]
  rng := fun _ _ size => List.replicate size 0
  gridSearchFull := (1, 2)
  regFit := fun _ _ _ c => if strContains c "interaction" then 0 else 1
  olsFit := fun _ _ _ _ => 6
  oldCoeffs := []
  initCoeffs := []
  numSamples := 1

/-! ### Structural lemmas about the engine loop -/

theorem seedStep_coeffs (ps : Params) (b : Nat) (st : EngineState) :
    (seedStep ps b st).coeffs =
      st.coeffs ++ (if (b : ℚ) ∈ preSeeds ps then [] else [seedRecord ps b]) := by
  unfold seedStep
  split <;> simp

theorem seedStep_trace (ps : Params) (b : Nat) (st : EngineState) :
    (seedStep ps b st).trace = st.trace ++ traceOf ps b := by
  unfold seedStep traceOf
  split <;> simp

theorem runSeeds_coeffs (ps : Params) (bs : List Nat) (st : EngineState) :
    (runSeeds ps bs st).coeffs =
      st.coeffs ++
        (bs.filter (fun b : Nat => !decide ((b : ℚ) ∈ preSeeds ps))).map (seedRecord ps) := by
  induction bs generalizing st with
  | nil => simp [runSeeds]
  | cons b bs ih =>
    rw [runSeeds, ih, seedStep_coeffs]
    by_cases h : (b : ℚ) ∈ preSeeds ps <;>
      simp [h, List.filter_cons]

theorem runSeeds_trace (ps : Params) (bs : List Nat) (st : EngineState) :
    (runSeeds ps bs st).trace = st.trace ++ (bs.map (traceOf ps)).flatten := by
  induction bs generalizing st with
  | nil => simp [runSeeds]
  | cons b bs ih =>
    rw [runSeeds, ih, seedStep_trace]
    simp

theorem cteBoostrap_coeffs (ps : Params) :
    (cteBoostrap ps).coeffs =
      ps.initCoeffs ++
        ((List.range ps.numSamples).filter
          (fun b : Nat => !decide ((b : ℚ) ∈ preSeeds ps))).map (seedRecord ps) := by
  rw [cteBoostrap, runSeeds_coeffs]

theorem cteBoostrap_trace (ps : Params) :
    (cteBoostrap ps).trace = ((List.range ps.numSamples).map (traceOf ps)).flatten := by
  rw [cteBoostrap, runSeeds_trace]
  simp

theorem mem_cteBoostrap_trace (ps : Params) (e : Event) :
    e ∈ (cteBoostrap ps).trace ↔
      ∃ b, b ∈ List.range ps.numSamples ∧ e ∈ traceOf ps b := by
  rw [cteBoostrap_trace]
  simp only [List.mem_flatten, List.mem_map]
  constructor
  · rintro ⟨l, ⟨b, hb, rfl⟩, he⟩
    exact ⟨b, hb, he⟩
  · rintro ⟨b, hb, he⟩
    exact ⟨traceOf ps b, ⟨b, hb, rfl⟩, he⟩

theorem traceOf_of_pre (ps : Params) (b : Nat) (h : (b : ℚ) ∈ preSeeds ps) :
    traceOf ps b = [Event.skip b] := by
  unfold traceOf
  rw [if_pos h]

theorem traceOf_legacy (ps : Params) (b : Nat) (h1 : (b : ℚ) ∉ preSeeds ps)
    (h2 : (b : ℚ) ∈ oldSeeds ps) :
    traceOf ps b =
      [Event.legacyReuse b,
       Event.olsRefitCall b (resampleIndsOf ps b) (seedSelected ps b),
       Event.persist b] := by
  unfold traceOf seedEvents branchEvents
  rw [if_neg h1, if_pos h2]
  rfl

theorem traceOf_fresh (ps : Params) (b : Nat) (h1 : (b : ℚ) ∉ preSeeds ps)
    (h2 : (b : ℚ) ∉ oldSeeds ps) :
    traceOf ps b =
      [Event.gridSearchCall b ps.gridSearchFull.1 ps.gridSearchFull.2,
       Event.regFitCall b (resampleIndsOf ps b),
       Event.olsRefitCall b (resampleIndsOf ps b) (seedSelected ps b),
       Event.persist b] := by
  unfold traceOf seedEvents branchEvents
  rw [if_neg h1, if_neg h2]
  rfl

theorem eventSeed_traceOf (ps : Params) (b : Nat) :
    ∀ e ∈ traceOf ps b, eventSeed e = b := by
  intro e he
  by_cases h1 : (b : ℚ) ∈ preSeeds ps
  · rw [traceOf_of_pre ps b h1] at he
    simp at he
    subst he
    rfl
  · by_cases h2 : (b : ℚ) ∈ oldSeeds ps
    · rw [traceOf_legacy ps b h1 h2] at he
      simp at he
      rcases he with rfl | rfl | rfl <;> rfl
    · rw [traceOf_fresh ps b h1 h2] at he
      simp at he
      rcases he with rfl | rfl | rfl | rfl <;> rfl

theorem mem_traceOf_of_mem_trace (ps : Params) (e : Event)
    (he : e ∈ (cteBoostrap ps).trace) :
    eventSeed e < ps.numSamples ∧ e ∈ traceOf ps (eventSeed e) := by
  obtain ⟨b, hb, hmem⟩ := (mem_cteBoostrap_trace ps e).mp he
  have hs := eventSeed_traceOf ps b e hmem
  rw [hs]
  exact ⟨List.mem_range.mp hb, hmem⟩

theorem mem_trace_of_mem_traceOf (ps : Params) (b : Nat) (hb : b < ps.numSamples)
    {e : Event} (he : e ∈ traceOf ps b) : e ∈ (cteBoostrap ps).trace :=
  (mem_cteBoostrap_trace ps e).mpr ⟨b, List.mem_range.mpr hb, he⟩

theorem filter_flatten_eq {α : Type} (p : α → Bool) (L : List (List α)) :
    L.flatten.filter p = (L.map (fun l => l.filter p)).flatten := by
  induction L with
  | nil => rfl
  | cons l L ih => simp [List.filter_append, ih]

theorem flatten_map_singleton {α : Type} (f : Nat → α) (l : List Nat) :
    (l.map (fun b => [f b])).flatten = l.map f := by
  induction l with
  | nil => rfl
  | cons b l ih => simp [ih]

theorem flatten_map_ite {α : Type} (f : Nat → α) (c : Nat → Bool) (l : List Nat) :
    (l.map (fun b => if c b then [f b] else [])).flatten = (l.filter c).map f := by
  induction l with
  | nil => rfl
  | cons b l ih =>
    by_cases h : c b <;> simp [List.filter_cons, h, ih]

theorem gridFilter_traceOf (ps : Params) (b : Nat) :
    (traceOf ps b).filter isGridCall =
      if (!decide ((b : ℚ) ∈ preSeeds ps) && !decide ((b : ℚ) ∈ oldSeeds ps)) then
        [Event.gridSearchCall b ps.gridSearchFull.1 ps.gridSearchFull.2]
      else [] := by
  by_cases h1 : (b : ℚ) ∈ preSeeds ps
  · rw [traceOf_of_pre ps b h1]
    simp [isGridCall, h1]
  · by_cases h2 : (b : ℚ) ∈ oldSeeds ps
    · rw [traceOf_legacy ps b h1 h2]
      simp [isGridCall, h1, h2]
    · rw [traceOf_fresh ps b h1 h2]
      simp [isGridCall, h1, h2]

theorem pairwise_le_of_const (l : List Nat) (b : Nat) (h : ∀ x ∈ l, x = b) :
    List.Pairwise (· ≤ ·) l := by
  induction l with
  | nil => exact List.Pairwise.nil
  | cons a l ih =>
    refine List.Pairwise.cons (fun y hy => ?_)
      (ih fun x hx => h x (List.mem_cons_of_mem a hx))
    rw [h a (List.mem_cons_self a l), h y (List.mem_cons_of_mem a hy)]

theorem seeds_of_flatten_map {ps : Params} {l : List Nat} {x : Nat}
    (hx : x ∈ ((l.map (traceOf ps)).flatten).map eventSeed) :
    ∃ b ∈ l, x = b := by
  simp only [List.mem_map, List.mem_flatten] at hx
  obtain ⟨e, ⟨t, ⟨b, hb, rfl⟩, het⟩, rfl⟩ := hx
  exact ⟨b, hb, eventSeed_traceOf ps b e het⟩

theorem pairwise_seedOrder (ps : Params) (l : List Nat)
    (hl : List.Pairwise (· ≤ ·) l) :
    List.Pairwise (· ≤ ·) (((l.map (traceOf ps)).flatten).map eventSeed) := by
  induction l with
  | nil => simp
  | cons b l ih =>
    simp only [List.map_cons, List.flatten_cons, List.map_append]
    rw [List.pairwise_append]
    rcases List.pairwise_cons.mp hl with ⟨hb, hl'⟩
    refine ⟨pairwise_le_of_const _ b (fun x hx => ?_), ih hl', fun x hx y hy => ?_⟩
    · obtain ⟨e, he, rfl⟩ := List.mem_map.mp hx
      exact eventSeed_traceOf ps b e he
    · obtain ⟨e, he, rfl⟩ := List.mem_map.mp hx
      obtain ⟨b', hb', hyb⟩ := seeds_of_flatten_map hy
      rw [eventSeed_traceOf ps b e he, hyb]
      exact hb b' hb'

theorem lookupCoeff_append (r1 r2 : Record) (c : String)
    (h : ∀ p ∈ r1, p.1 ≠ c) :
    lookupCoeff (r1 ++ r2) c = lookupCoeff r2 c := by
  induction r1 with
  | nil => rfl
  | cons p r1 ih =>
    have hp : decide (p.1 = c) = false :=
      decide_eq_false (h p (List.mem_cons_self p r1))
    simp only [List.cons_append, lookupCoeff, List.find?, hp]
    exact ih (fun q hq => h q (List.mem_cons_of_mem p hq))

theorem seedResultParams_keys_ne_seed (ps : Params) (b : Nat)
    (hseed : "seed" ∉ ps.cols) :
    ∀ p ∈ seedResultParams ps b, p.1 ≠ "seed" := by
  intro p hp
  unfold seedResultParams at hp
  split at hp
  · unfold legacyRow at hp
    have := (List.mem_filter.mp hp).2
    simpa using this
  · unfold freshParams at hp
    obtain ⟨c, hc, rfl⟩ := List.mem_map.mp hp
    intro hcontra
    simp only at hcontra
    rw [hcontra] at hc
    exact hseed hc

theorem seedSelected_mem (ps : Params) (b : Nat) :
    ∀ c ∈ seedSelected ps b, ∃ q ∈ seedResultParams ps b, q.1 = c := by
  intro c hc
  obtain ⟨q, hq, rfl⟩ := List.mem_map.mp hc
  exact ⟨q, (List.mem_filter.mp hq).1, rfl⟩

theorem lookupCoeff_seedRecord (ps : Params) (b : Nat)
    (hseed : "seed" ∉ ps.cols) :
    lookupCoeff (seedRecord ps b) "seed" = some (b : ℚ) := by
  have hne : ∀ p ∈ seedNonselected ps b ++ seedSelective ps b, p.1 ≠ "seed" := by
    intro p hp
    rcases List.mem_append.mp hp with h | h
    · exact seedResultParams_keys_ne_seed ps b hseed p (List.mem_filter.mp h).1
    · obtain ⟨c, hc, rfl⟩ := List.mem_map.mp h
      obtain ⟨q, hq, hq1⟩ := seedSelected_mem ps b c hc
      simpa [← hq1] using seedResultParams_keys_ne_seed ps b hseed q hq
  have hrw : seedRecord ps b =
      (seedNonselected ps b ++ seedSelective ps b) ++ [("seed", (b : ℚ))] := by
    rw [seedRecord]
  rw [hrw, lookupCoeff_append _ _ _ hne]
  rfl

theorem seedRecord_mem_coeffs (ps : Params) (b : Nat) (hb : b < ps.numSamples)
    (h1 : (b : ℚ) ∉ preSeeds ps) :
    seedRecord ps b ∈ (cteBoostrap ps).coeffs := by
  rw [cteBoostrap_coeffs]
  refine List.mem_append.mpr (Or.inr ?_)
  refine List.mem_map.mpr ⟨b, ?_, rfl⟩
  refine List.mem_filter.mpr ⟨List.mem_range.mpr hb, ?_⟩
  simp [h1]

/-! ### Claim theorems -/

/-- C1, counterexample: the claim states the Regularization Pair is
computed by Grid Search at most once per response and that Grid Search
is never re-invoked per seed. False: with an empty cache and two seeds,
the engine invokes Grid Search twice — `full_grid_search` (line 74 of
`main.py`) runs inside the per-seed loop, once for every seed that
needs a fresh fit. -/
theorem C1_counterexample :
    ¬ ((cteBoostrap paramsC1).trace.filter isGridCall).length ≤ 1 := by
  decide

/-- C1 (amended): Grid Search is invoked exactly once per seed that is
neither in the current cache nor in the legacy cache — it is not
memoized across seeds — and every invocation is on the full unresampled
data with the fixed grid size, so each returns the same Regularization
Pair, which is the pair the seed's regularized fit then uses. -/
theorem C1_amended (ps : Params) :
    (cteBoostrap ps).trace.filter isGridCall =
      ((List.range ps.numSamples).filter
        (fun b : Nat =>
          !decide ((b : ℚ) ∈ preSeeds ps) && !decide ((b : ℚ) ∈ oldSeeds ps))).map
        (fun b => Event.gridSearchCall b ps.gridSearchFull.1 ps.gridSearchFull.2) := by
  rw [cteBoostrap_trace, filter_flatten_eq, List.map_map]
  have hcong :
      (List.range ps.numSamples).map ((fun l => l.filter isGridCall) ∘ traceOf ps) =
        (List.range ps.numSamples).map
          (fun b : Nat =>
            if (!decide ((b : ℚ) ∈ preSeeds ps) && !decide ((b : ℚ) ∈ oldSeeds ps)) then
              [Event.gridSearchCall b ps.gridSearchFull.1 ps.gridSearchFull.2]
            else []) :=
    List.map_congr_left (fun b _ => gridFilter_traceOf ps b)
  rw [hcong, flatten_map_ite]

/-- C2, counterexample: the claim states a legacy record is copied
verbatim and that no OLS refit is invoked for a legacy seed. False: for
the legacy seed 0 the engine emits an OLS-refit invocation (lines 91-92
of `main.py` run in both branches), and the record written to the cache
carries the freshly refit value 7 for column `a` whereas the legacy
record stores 5. -/
theorem C2_counterexample :
    (0 : ℚ) ∈ oldSeeds paramsC2 ∧ (0 : ℚ) ∉ preSeeds paramsC2 ∧
    Event.olsRefitCall 0 [0] ["a"] ∈ (cteBoostrap paramsC2).trace ∧
    (cteBoostrap paramsC2).coeffs = [[("a", 7), ("seed", 0)]] ∧
    lookupCoeff (paramsC2.oldCoeffs.getD 0 []) "a" = some 5 := by
  decide

/-- C2 (amended): for a seed `b` in the legacy cache and not in the
current cache, the legacy record (minus `seed`) is used in place of the
regularized fit — neither Grid Search nor the regularized fit runs for
that seed — but an OLS refit on the resampled data over the legacy
record's nonzero columns is still invoked, and the stored record
combines the legacy zero entries with the freshly refit coefficients
and `seed = b`. -/
theorem C2_amended (ps : Params) (b : Nat) (hb : b < ps.numSamples)
    (h1 : (b : ℚ) ∉ preSeeds ps) (h2 : (b : ℚ) ∈ oldSeeds ps) :
    Event.legacyReuse b ∈ (cteBoostrap ps).trace ∧
    (∀ l1 l2, Event.gridSearchCall b l1 l2 ∉ (cteBoostrap ps).trace) ∧
    (∀ inds, Event.regFitCall b inds ∉ (cteBoostrap ps).trace) ∧
    Event.olsRefitCall b (resampleIndsOf ps b) (seedSelected ps b) ∈
      (cteBoostrap ps).trace ∧
    seedResultParams ps b = legacyRow ps b ∧
    seedRecord ps b ∈ (cteBoostrap ps).coeffs := by
  have htr := traceOf_legacy ps b h1 h2
  refine ⟨?_, ?_, ?_, ?_, ?_, ?_⟩
  · exact mem_trace_of_mem_traceOf ps b hb (by rw [htr]; simp)
  · intro l1 l2 hmem
    have h := (mem_traceOf_of_mem_trace ps _ hmem).2
    simp only [eventSeed] at h
    rw [htr] at h
    simp at h
  · intro inds hmem
    have h := (mem_traceOf_of_mem_trace ps _ hmem).2
    simp only [eventSeed] at h
    rw [htr] at h
    simp at h
  · exact mem_trace_of_mem_traceOf ps b hb (by rw [htr]; simp)
  · unfold seedResultParams
    rw [if_pos h2]
  · exact seedRecord_mem_coeffs ps b hb h1

/-- C2, witness for the amended statement at the concrete legacy run. -/
theorem C2_witness :
    (0 < paramsC2.numSamples ∧ (0 : ℚ) ∉ preSeeds paramsC2 ∧
      (0 : ℚ) ∈ oldSeeds paramsC2) ∧
    (Event.legacyReuse 0 ∈ (cteBoostrap paramsC2).trace ∧
     (∀ l1 l2, Event.gridSearchCall 0 l1 l2 ∉ (cteBoostrap paramsC2).trace) ∧
     (∀ inds, Event.regFitCall 0 inds ∉ (cteBoostrap paramsC2).trace) ∧
     Event.olsRefitCall 0 (resampleIndsOf paramsC2 0) (seedSelected paramsC2 0) ∈
       (cteBoostrap paramsC2).trace ∧
     seedResultParams paramsC2 0 = legacyRow paramsC2 0 ∧
     seedRecord paramsC2 0 ∈ (cteBoostrap paramsC2).coeffs) :=
  ⟨⟨by decide, by decide, by decide⟩,
   C2_amended paramsC2 0 (by decide) (by decide) (by decide)⟩

/-- C3: the orchestrator never successfully invokes the engine. Line 184
of `main.py` calls `cte_bootstrap`, a name bound neither at module level
nor by the imports — the function is defined as `cte_boostrap` — so
Python raises `NameError` instead of running the bootstrap. In addition
the sample count `num_bootstrap_samples` read on line 54 is bound only
as a local of `main` (line 162), not in `cte_boostrap` or the module
globals, so even a correctly spelled call would fail before processing
any seed, and no sample count is ever passed to the engine. -/
theorem C3_bug :
    mainBootstrapCallTarget ∉ moduleNames ∧
    "cte_boostrap" ∈ moduleNames ∧
    "num_bootstrap_samples" ∉ moduleNames ++ cteBoostrapLocalNames := by
  decide

/-- C6: every seed that is not skipped resamples by reseeding the
generator with `b` and drawing `n` indices at `high = n`, `size = n`
where `n` is the row count of the full design matrix; the resampled
matrix and response are exactly the rows at those indices, duplicates
allowed, in the order drawn; and those indices are the ones the seed's
recorded refit invocation carries. (Uniformity and independence of the
draws are numpy's documented contract for `randint`, outside the
modelled boundary.) -/
theorem C6_thm (ps : Params) (b : Nat) (hb : b < ps.numSamples)
    (h1 : (b : ℚ) ∉ preSeeds ps) :
    resampleIndsOf ps b = ps.rng b ps.rows.length ps.rows.length ∧
    resampleX ps b = (resampleIndsOf ps b).map (fun i => ps.rows.getD i []) ∧
    resampleY ps b = (resampleIndsOf ps b).map (fun i => ps.y.getD i 0) ∧
    Event.olsRefitCall b (resampleIndsOf ps b) (seedSelected ps b) ∈
      (cteBoostrap ps).trace := by
  refine ⟨rfl, rfl, rfl, ?_⟩
  by_cases h2 : (b : ℚ) ∈ oldSeeds ps
  · exact mem_trace_of_mem_traceOf ps b hb (by rw [traceOf_legacy ps b h1 h2]; simp)
  · exact mem_trace_of_mem_traceOf ps b hb (by rw [traceOf_fresh ps b h1 h2]; simp)

/-- C6, witness at a concrete two-row run: seed 0 draws `[0, 0]`. -/
theorem C6_witness :
    (0 < paramsC6.numSamples ∧ (0 : ℚ) ∉ preSeeds paramsC6) ∧
    (resampleIndsOf paramsC6 0 = paramsC6.rng 0 paramsC6.rows.length paramsC6.rows.length ∧
     resampleX paramsC6 0 = (resampleIndsOf paramsC6 0).map (fun i => paramsC6.rows.getD i []) ∧
     resampleY paramsC6 0 = (resampleIndsOf paramsC6 0).map (fun i => paramsC6.y.getD i 0) ∧
     Event.olsRefitCall 0 (resampleIndsOf paramsC6 0) (seedSelected paramsC6 0) ∈
       (cteBoostrap paramsC6).trace) :=
  ⟨⟨by decide, by decide⟩, C6_thm paramsC6 0 (by decide) (by decide)⟩

/-- C4, counterexample: the claim states that for an entirely zero
coefficient vector the unregularized refit step is skipped. False: the
code has no special-casing — for a run whose regularized coefficients
are all zero, the engine still emits an OLS-refit invocation, with an
empty selected-column list (lines 91-92 of `main.py` run on
`re_X[selected]` with `selected` empty). -/
theorem C4_counterexample :
    (∀ p ∈ seedResultParams paramsC4 0, p.2 = 0) ∧
    Event.olsRefitCall 0 [0] [] ∈ (cteBoostrap paramsC4).trace := by
  decide

/-- C4 (amended): when the regularized (or legacy) coefficient vector of
a non-skipped seed is entirely zero, the selected set is empty and the
stored Coefficient Record is all zeros apart from its `seed` field — but
the OLS refit step is not skipped: it is invoked on a zero-column design
(whether statsmodels' OLS errors on a zero-column matrix is outside the
modelled boundary; at the modelled level its output over zero columns is
empty and contributes nothing to the record). -/
theorem C4_amended (ps : Params) (b : Nat) (hb : b < ps.numSamples)
    (h1 : (b : ℚ) ∉ preSeeds ps)
    (hz : ∀ p ∈ seedResultParams ps b, p.2 = 0) :
    seedSelected ps b = [] ∧
    Event.olsRefitCall b (resampleIndsOf ps b) [] ∈ (cteBoostrap ps).trace ∧
    seedRecord ps b = seedResultParams ps b ++ [("seed", (b : ℚ))] ∧
    (∀ p ∈ seedRecord ps b, p.2 = 0 ∨ p = ("seed", (b : ℚ))) ∧
    seedRecord ps b ∈ (cteBoostrap ps).coeffs := by
  have hfil : (seedResultParams ps b).filter (fun p => decide (p.2 ≠ 0)) = [] := by
    rw [List.filter_eq_nil_iff]
    intro p hp
    simpa using hz p hp
  have hsel : seedSelected ps b = [] := by
    unfold seedSelected
    rw [hfil]
    rfl
  have hnon : seedNonselected ps b = seedResultParams ps b := by
    unfold seedNonselected
    rw [List.filter_eq_self]
    intro p hp
    simpa using hz p hp
  have hselc : seedSelective ps b = [] := by
    unfold seedSelective
    rw [hsel]
    rfl
  have hrec : seedRecord ps b = seedResultParams ps b ++ [("seed", (b : ℚ))] := by
    rw [seedRecord, hnon, hselc, List.append_nil]
  refine ⟨hsel, ?_, hrec, ?_, seedRecord_mem_coeffs ps b hb h1⟩
  · by_cases h2 : (b : ℚ) ∈ oldSeeds ps
    · refine mem_trace_of_mem_traceOf ps b hb ?_
      rw [traceOf_legacy ps b h1 h2, hsel]
      simp
    · refine mem_trace_of_mem_traceOf ps b hb ?_
      rw [traceOf_fresh ps b h1 h2, hsel]
      simp
  · intro p hp
    rw [hrec] at hp
    rcases List.mem_append.mp hp with h | h
    · exact Or.inl (hz p h)
    · simp at h
      exact Or.inr h

/-- C4, witness for the amended statement at the all-zero run. -/
theorem C4_witness :
    (0 < paramsC4.numSamples ∧ (0 : ℚ) ∉ preSeeds paramsC4 ∧
      ∀ p ∈ seedResultParams paramsC4 0, p.2 = 0) ∧
    (seedSelected paramsC4 0 = [] ∧
     Event.olsRefitCall 0 (resampleIndsOf paramsC4 0) [] ∈ (cteBoostrap paramsC4).trace ∧
     seedRecord paramsC4 0 = seedResultParams paramsC4 0 ++ [("seed", (0 : ℚ))] ∧
     (∀ p ∈ seedRecord paramsC4 0, p.2 = 0 ∨ p = ("seed", (0 : ℚ))) ∧
     seedRecord paramsC4 0 ∈ (cteBoostrap paramsC4).coeffs) :=
  ⟨⟨by decide, by decide, by decide⟩,
   C4_amended paramsC4 0 (by decide) (by decide) (by decide)⟩

/-- C5: seeds are processed in nondecreasing seed order (the loop runs
over `range(num_bootstrap_samples)` and each seed's events are
contiguous, so distinct seeds appear in strictly increasing order); a
seed in the loaded current cache contributes only its skip event — no
fit, no refit, no persistence — and every record in the final cache
whose `seed` equals such a seed was already in the loaded cache; with an
already-complete cache the run changes nothing: the cache is returned
as loaded and the trace is pure skips, with zero fits. -/
theorem C5_thm (ps : Params) (hseed : "seed" ∉ ps.cols) :
    List.Pairwise (· ≤ ·) ((cteBoostrap ps).trace.map eventSeed) ∧
    (∀ b : Nat, (b : ℚ) ∈ preSeeds ps →
      (∀ e ∈ (cteBoostrap ps).trace, eventSeed e = b → e = Event.skip b) ∧
      (∀ r ∈ (cteBoostrap ps).coeffs, lookupCoeff r "seed" = some (b : ℚ) →
        r ∈ ps.initCoeffs)) ∧
    ((∀ b : Nat, b < ps.numSamples → (b : ℚ) ∈ preSeeds ps) →
      (cteBoostrap ps).coeffs = ps.initCoeffs ∧
      (cteBoostrap ps).trace = (List.range ps.numSamples).map Event.skip) := by
  refine ⟨?_, ?_, ?_⟩
  · rw [cteBoostrap_trace]
    exact pairwise_seedOrder ps _ ((List.pairwise_lt_range _).imp (fun h => le_of_lt h))
  · intro b hpre
    constructor
    · intro e he hs
      have h := (mem_traceOf_of_mem_trace ps e he).2
      rw [hs, traceOf_of_pre ps b hpre] at h
      simpa using h
    · intro r hr hlook
      rw [cteBoostrap_coeffs] at hr
      rcases List.mem_append.mp hr with h | h
      · exact h
      · obtain ⟨b', hb', rfl⟩ := List.mem_map.mp h
        have h1 : (b' : ℚ) ∉ preSeeds ps := by
          have := (List.mem_filter.mp hb').2
          simpa using this
        rw [lookupCoeff_seedRecord ps b' hseed] at hlook
        have : (b' : ℚ) = (b : ℚ) := by
          exact Option.some_injective _ hlook
        rw [this] at h1
        exact absurd hpre h1
  · intro hfull
    constructor
    · rw [cteBoostrap_coeffs]
      have : (List.range ps.numSamples).filter
          (fun b : Nat => !decide ((b : ℚ) ∈ preSeeds ps)) = [] := by
        rw [List.filter_eq_nil_iff]
        intro b hbmem
        simp [hfull b (List.mem_range.mp hbmem)]
      rw [this]
      simp
    · rw [cteBoostrap_trace]
      have hcong : (List.range ps.numSamples).map (traceOf ps) =
          (List.range ps.numSamples).map (fun b => [Event.skip b]) :=
        List.map_congr_left
          (fun b hbmem => traceOf_of_pre ps b (hfull b (List.mem_range.mp hbmem)))
      rw [hcong, flatten_map_singleton]

/-- C5, witness at a run whose single seed is already cached. -/
theorem C5_witness :
    ("seed" ∉ paramsC5.cols ∧ ∀ b : Nat, b < paramsC5.numSamples →
      (b : ℚ) ∈ preSeeds paramsC5) ∧
    ((cteBoostrap paramsC5).coeffs = paramsC5.initCoeffs ∧
     (cteBoostrap paramsC5).trace = (List.range paramsC5.numSamples).map Event.skip) :=
  ⟨⟨by decide, by decide⟩,
   (C5_thm paramsC5 (by decide)).2.2 (by decide)⟩

/-- C7: for every non-skipped seed whose regularized (or legacy)
coefficient vector carries exactly the design-matrix columns, the stored
record's labels are exactly those columns plus `seed`; the selected and
nonselected entries partition the columns (their counts sum to the
column count); every nonselected entry carries coefficient 0; the
selected entries carry exactly the unregularized refit coefficients; and
the record is in the final cache. -/
theorem C7_thm (ps : Params) (b : Nat) (hb : b < ps.numSamples)
    (h1 : (b : ℚ) ∉ preSeeds ps)
    (hkeys : List.Perm (recordKeys (seedResultParams ps b)) ps.cols) :
    List.Perm (recordKeys (seedRecord ps b)) (ps.cols ++ ["seed"]) ∧
    (seedSelected ps b).length + (seedNonselected ps b).length = ps.cols.length ∧
    (∀ p ∈ seedNonselected ps b, p.2 = 0) ∧
    seedSelective ps b = (seedSelected ps b).map (fun c =>
      (c, ps.olsFit (reXsel ps b) (resampleY ps b) (seedSelected ps b) c)) ∧
    seedRecord ps b ∈ (cteBoostrap ps).coeffs := by
  have hfeq : (seedResultParams ps b).filter (fun p => decide (p.2 ≠ 0)) =
      (seedResultParams ps b).filter (fun p => !decide (p.2 = 0)) := by
    apply List.filter_congr
    intro p _
    simp
  have hperm : List.Perm (seedNonselected ps b ++
      (seedResultParams ps b).filter (fun p => decide (p.2 ≠ 0)))
      (seedResultParams ps b) := by
    rw [hfeq]
    exact List.filter_append_perm _ _
  have hselkeys : recordKeys (seedSelective ps b) = seedSelected ps b := by
    unfold seedSelective recordKeys
    rw [List.map_map]
    have hcomp : (Prod.fst ∘ fun c =>
        (c, ps.olsFit (reXsel ps b) (resampleY ps b) (seedSelected ps b) c)) =
        @id String := rfl
    rw [hcomp, List.map_id]
  have hkeyrec : recordKeys (seedRecord ps b) =
      (recordKeys (seedNonselected ps b) ++ seedSelected ps b) ++ ["seed"] := by
    unfold seedRecord recordKeys
    rw [List.map_append, List.map_append]
    unfold recordKeys at hselkeys
    rw [hselkeys]
    rfl
  have hkperm : List.Perm (recordKeys (seedNonselected ps b) ++ seedSelected ps b)
      (recordKeys (seedResultParams ps b)) := by
    have := hperm.map Prod.fst
    rw [List.map_append] at this
    exact this
  refine ⟨?_, ?_, ?_, rfl, seedRecord_mem_coeffs ps b hb h1⟩
  · rw [hkeyrec]
    exact (hkperm.trans hkeys).append_right ["seed"]
  · have hlen : (recordKeys (seedNonselected ps b) ++ seedSelected ps b).length =
        ps.cols.length := (hkperm.trans hkeys).length_eq
    rw [List.length_append] at hlen
    unfold recordKeys at hlen
    rw [List.length_map] at hlen
    rw [Nat.add_comm] at hlen
    exact hlen
  · intro p hp
    have := (List.mem_filter.mp hp).2
    simpa using this

/-- C7, witness at a run with one main-effect and one interaction
column. -/
theorem C7_witness :
    (0 < paramsC7.numSamples ∧ (0 : ℚ) ∉ preSeeds paramsC7 ∧
      List.Perm (recordKeys (seedResultParams paramsC7 0)) paramsC7.cols) ∧
    (List.Perm (recordKeys (seedRecord paramsC7 0)) (paramsC7.cols ++ ["seed"]) ∧
     (seedSelected paramsC7 0).length + (seedNonselected paramsC7 0).length =
       paramsC7.cols.length ∧
     (∀ p ∈ seedNonselected paramsC7 0, p.2 = 0) ∧
     seedSelective paramsC7 0 = (seedSelected paramsC7 0).map (fun c =>
       (c, paramsC7.olsFit (reXsel paramsC7 0) (resampleY paramsC7 0)
         (seedSelected paramsC7 0) c)) ∧
     seedRecord paramsC7 0 ∈ (cteBoostrap paramsC7).coeffs) :=
  ⟨⟨by decide, by decide, by decide⟩,
   C7_thm paramsC7 0 (by decide) (by decide) (by decide)⟩

/-- C8, counterexample: the claim states non-`all` inputs are resolved
by substring match against the four category names. False: `language`
is a substring of the category name `Yr04_oral_language`
(case-insensitively), yet resolution rejects it — the code tests fixed
keywords for occurrence inside the input, not the input against the
category names. -/
theorem C8_counterexample :
    specSubstringMatches "language" = ["Yr04_oral_language"] ∧
    resolveResponse "language" = none := by
  decide

/-- C8 (amended): resolution lowercases the selector; `all` maps to the
four categories; otherwise the code checks whether fixed keywords occur
as substrings of the lowercased input — `oral`, then `literacy`, then
both `print` and `knowledge`, then both `print` and `motivation` — in
that order, and an input containing none of these keyword combinations
fails with the resolution error (`ValueError`, the spec's
`UnknownResponseError`); every successful resolution yields either the
full category list or a single category. -/
theorem C8_amended (s : String) :
    (strLower s = "all" → resolveResponse s = some responseCategories) ∧
    (resolveResponse s = none ↔
      (strLower s ≠ "all" ∧ strContains (strLower s) "oral" = false ∧
       strContains (strLower s) "literacy" = false ∧
       (strContains (strLower s) "print" = false ∨
        (strContains (strLower s) "knowledge" = false ∧
         strContains (strLower s) "motivation" = false)))) ∧
    (∀ l, resolveResponse s = some l →
      l = responseCategories ∨ ∃ c ∈ responseCategories, l = [c]) := by
  refine ⟨?_, ⟨?_, ?_⟩, ?_⟩
  · intro h0
    unfold resolveResponse
    rw [if_pos h0]
  · intro hnone
    unfold resolveResponse at hnone
    split_ifs at hnone with h0 ho hli hpk hpm
    refine ⟨h0, by simpa using ho, by simpa using hli, ?_⟩
    rw [Bool.and_eq_true] at hpk hpm
    by_cases hp : strContains (strLower s) "print" = true
    · refine Or.inr ⟨?_, ?_⟩
      · rcases Bool.eq_false_or_eq_true (strContains (strLower s) "knowledge") with h | h
        · exact absurd ⟨hp, h⟩ hpk
        · exact h
      · rcases Bool.eq_false_or_eq_true (strContains (strLower s) "motivation") with h | h
        · exact absurd ⟨hp, h⟩ hpm
        · exact h
    · exact Or.inl (by simpa using hp)
  · rintro ⟨h0, ho, hli, hrest⟩
    unfold resolveResponse
    rw [if_neg h0, if_neg (by simp [ho]), if_neg (by simp [hli])]
    rcases hrest with hp | ⟨hk, hm⟩
    · rw [if_neg (by simp [hp]), if_neg (by simp [hp])]
    · rw [if_neg (by simp [hk]), if_neg (by simp [hm])]
  · intro l hl
    unfold resolveResponse at hl
    split_ifs at hl with h0 ho hli hpk hpm
    · exact Or.inl (Option.some_injective _ hl).symm
    · exact Or.inr ⟨"Yr04_oral_language", by decide,
        (Option.some_injective _ hl).symm⟩
    · exact Or.inr ⟨"Yr04_literacy_resources", by decide,
        (Option.some_injective _ hl).symm⟩
    · exact Or.inr ⟨"Yr04_print_knowledge", by decide,
        (Option.some_injective _ hl).symm⟩
    · exact Or.inr ⟨"Yr04_print_motivation", by decide,
        (Option.some_injective _ hl).symm⟩

/-- C8, witness for the amended statement at concrete selectors. -/
theorem C8_witness :
    (strLower "ALL" = "all" ∧ resolveResponse "ALL" = some responseCategories) ∧
    resolveResponse "xyz" = none :=
  ⟨⟨by decide, (C8_amended "ALL").1 (by decide)⟩,
   ((C8_amended "xyz").2.1).mpr (by decide)⟩

/-- C9: the boolean-flag parser returns true on every string whose
lowercasing is one of `yes`, `true`, `t`, `y`, `1`; false on every
string whose lowercasing is one of `no`, `false`, `f`, `n`, `0`; and
fails with the usage error (`argparse.ArgumentTypeError`, modelled as
`none`) on every other string. -/
theorem C9_thm (v : String) :
    (strLower v ∈ ["yes", "true", "t", "y", "1"] → str2bool v = some true) ∧
    (strLower v ∈ ["no", "false", "f", "n", "0"] → str2bool v = some false) ∧
    (strLower v ∉ ["yes", "true", "t", "y", "1", "no", "false", "f", "n", "0"] →
      str2bool v = none) := by
  refine ⟨fun h => ?_, fun h => ?_, fun h => ?_⟩
  · unfold str2bool
    rw [if_pos h]
  · have hne : strLower v ∉ ["yes", "true", "t", "y", "1"] := by
      intro h2
      simp only [List.mem_cons, List.not_mem_nil, or_false] at h h2
      rcases h with h | h | h | h | h <;> rcases h2 with h2 | h2 | h2 | h2 | h2 <;>
        (rw [h] at h2; exact absurd h2 (by decide))
    unfold str2bool
    rw [if_neg hne, if_pos h]
  · have h1 : strLower v ∉ ["yes", "true", "t", "y", "1"] := by
      intro h2
      refine h ?_
      simp only [List.mem_cons, List.not_mem_nil, or_false] at h2 ⊢
      tauto
    have h2 : strLower v ∉ ["no", "false", "f", "n", "0"] := by
      intro hx
      refine h ?_
      simp only [List.mem_cons, List.not_mem_nil, or_false] at hx ⊢
      tauto
    unfold str2bool
    rw [if_neg h1, if_neg h2]

/-- C9, witness at concrete flag strings of each class. -/
theorem C9_witness :
    (strLower "TRUE" ∈ ["yes", "true", "t", "y", "1"] ∧
      str2bool "TRUE" = some true) ∧
    (strLower "No" ∈ ["no", "false", "f", "n", "0"] ∧
      str2bool "No" = some false) ∧
    (strLower "maybe" ∉
        ["yes", "true", "t", "y", "1", "no", "false", "f", "n", "0"] ∧
      str2bool "maybe" = none) :=
  ⟨⟨by decide, (C9_thm "TRUE").1 (by decide)⟩,
   ⟨by decide, (C9_thm "No").2.1 (by decide)⟩,
   ⟨by decide, (C9_thm "maybe").2.2 (by decide)⟩⟩

/-- C10: response resolution lowercases the selector before any
matching (line 141 of `main.py`), so two selectors with the same
lowercasing resolve identically — to the same category lists or to the
same failure. -/
theorem C10_thm (s t : String) (h : strLower s = strLower t) :
    resolveResponse s = resolveResponse t := by
  unfold resolveResponse
  rw [h]

/-- C10, witness at a concrete case variant. -/
theorem C10_witness :
    strLower "ORAL Language" = strLower "oral language" ∧
    resolveResponse "ORAL Language" = resolveResponse "oral language" :=
  ⟨by decide, C10_thm "ORAL Language" "oral language" (by decide)⟩

end Stat186
